import Mathlib

/-!
# Verification of the Zakat Management System backend

A shallow embedding of `src/backend/main.py` and `src/backend/models.py`:
the MongoDB collections become lists of documents, each FastAPI handler
becomes a Lean function returning `Except HTTPError result` (and the new
database state for mutating handlers).  Monetary amounts are modelled as
rationals; the handlers' arithmetic (`amount * 0.025`, the statistics
sums) is translated literally.
-/

namespace ZakatMS

/-- An HTTP error as raised by `HTTPException(status_code, detail)`. -/
structure HTTPError where
  status_code : Nat
  detail : String
deriving DecidableEq, Repr

/-- A document of the `users` collection (see `register` in `main.py`):
`{username, email, password (hashed), full_name, created_at}` plus its
Mongo `_id` (modelled as its string form `oid`). -/
structure UserDoc where
  oid : String
  username : String
  email : String
  password : String
  full_name : String
  created_at : Nat
deriving DecidableEq, Repr

/-- A document of the `zakat_entries` collection (see `create_zakat_entry`):
`{amount, category, description, date, zakat_amount, user_id, created_at}`
plus its Mongo `_id` as `oid`.  Timestamps are abstract instants (`Nat`). -/
structure ZakatDoc where
  oid : String
  amount : ℚ
  category : String
  description : Option String
  date : Nat
  zakat_amount : ℚ
  user_id : String
  created_at : Nat
deriving DecidableEq, Repr

/-- The persistent state: the two MongoDB collections. -/
structure DB where
  users : List UserDoc
  zakat : List ZakatDoc
deriving DecidableEq, Repr

/-- `models.UserCreate`: request body of `POST /auth/register`.
No field carries a validation constraint beyond its type. -/
structure UserCreate where
  username : String
  email : String
  password : String
  full_name : String
deriving DecidableEq, Repr

/-- `models.UserResponse`: `{id, username, email, full_name, created_at}`;
the model declares no password field. -/
structure UserResponse where
  id : String
  username : String
  email : String
  full_name : String
  created_at : Nat
deriving DecidableEq, Repr

/-- `models.ZakatCreate`: request body of `POST /zakat`.  `amount` is a
plain `float` with no positivity (or any other) constraint; `description`
and `date` are optional. -/
structure ZakatCreate where
  amount : ℚ
  category : String
  description : Option String
  date : Option Nat
deriving DecidableEq, Repr

/-- `models.ZakatUpdate`: partial body of `PUT /zakat/{id}`; every field
optional, `None` meaning "not supplied". -/
structure ZakatUpdate where
  amount : Option ℚ
  category : Option String
  description : Option String
  date : Option Nat
deriving DecidableEq, Repr

/-- `models.ZakatResponse`: `{id, amount, category, description, date,
zakat_amount, user_id}` (the stored `created_at` is not part of the
response model and is dropped by pydantic). -/
structure ZakatResponse where
  id : String
  amount : ℚ
  category : String
  description : Option String
  date : Nat
  zakat_amount : ℚ
  user_id : String
deriving DecidableEq, Repr

/-- `models.Token`: `{access_token, token_type}`. -/
structure Token where
  access_token : String
  token_type : String
deriving DecidableEq, Repr

/-- Per-category accumulator of `get_zakat_statistics`:
`{count, total_amount, total_zakat}`. -/
structure CatStat where
  count : Nat
  total_amount : ℚ
  total_zakat : ℚ
deriving DecidableEq, Repr

/-- Output of `GET /zakat/statistics/summary`.  The category breakdown is
a finite map in first-occurrence insertion order, modelled as an
association list. -/
structure StatsResponse where
  total_amount : ℚ
  total_zakat : ℚ
  total_entries : Nat
  category_breakdown : List (String × CatStat)
deriving DecidableEq, Repr

/-- The fixed zakat rate `0.025` used in `main.py` (lines 152 and 269). -/
def zakatRate : ℚ := 25 / 1000

/-- `bson.ObjectId(s)` succeeds exactly on a 24-character hexadecimal
string; on anything else it raises (the `except:` branches of the
handlers). -/
def isValidObjectId (s : String) : Bool :=
  s.length == 24 && s.toList.all (fun c =>
    c.isDigit || ('a' ≤ c && c ≤ 'f') || ('A' ≤ c && c ≤ 'F'))

/-- The error raised by every zakat handler when the token's email has no
user document: `HTTPException(404, "User not found")`. -/
def userNotFound : HTTPError := ⟨404, "User not found"⟩

/-- `HTTPException(404, "Zakat entry not found")`. -/
def entryNotFound : HTTPError := ⟨404, "Zakat entry not found"⟩

/-- `HTTPException(400, "Invalid zakat ID")`, raised when
`ObjectId(zakat_id)` fails. -/
def invalidZakatId : HTTPError := ⟨400, "Invalid zakat ID"⟩

/-- The single error of `login` for both a missing user and a password
mismatch: `HTTPException(401, "Incorrect email or password")`. -/
def badCredentials : HTTPError := ⟨401, "Incorrect email or password"⟩

/-- `users_collection.find_one({"email": e})`: first document with that
email. -/
def findUserByEmail (db : DB) (e : String) : Option UserDoc :=
  db.users.find? (fun u => u.email == e)

/-- `zakat_collection.find_one({"_id": ObjectId(id), "user_id": uid})`:
first entry matching both the id and the owner. -/
def findOwnedEntry (db : DB) (zakat_id uid : String) : Option ZakatDoc :=
  db.zakat.find? (fun z => z.oid == zakat_id && z.user_id == uid)

/-- Turn a stored document into the response shape (`entry["id"] =
str(entry["_id"]); ZakatResponse(**entry)`). -/
def zakatDocToResponse (z : ZakatDoc) : ZakatResponse :=
  ⟨z.oid, z.amount, z.category, z.description, z.date, z.zakat_amount, z.user_id⟩

/-- Modelled from the spec: `auth.create_access_token` (file `auth.py` is
not under `src/`).  Per spec §4.2 the token "encodes the claim (owning
user's email)" and is signed; only the encoded identity claim is relevant
to the handlers, so the token is modelled as that claim. -/
def create_access_token (sub : String) : String := sub

/-- `POST /auth/register` (`main.py` lines 53-88).  `hashPw` abstracts
`auth.get_password_hash`; `newOid` is the `_id` Mongo assigns to the
insert; `now` is `datetime.utcnow()`. -/
def register (hashPw : String → String) (db : DB) (newOid : String) (now : Nat)
    (user : UserCreate) : Except HTTPError (UserResponse × DB) :=
  match db.users.find? (fun u => u.email == user.email) with
  | some _ => .error ⟨400, "Email already registered"⟩
  | none =>
    match db.users.find? (fun u => u.username == user.username) with
    | some _ => .error ⟨400, "Username already taken"⟩
    | none =>
      let user_doc : UserDoc :=
        ⟨newOid, user.username, user.email, hashPw user.password, user.full_name, now⟩
      .ok (⟨newOid, user.username, user.email, user.full_name, now⟩,
           { db with users := db.users ++ [user_doc] })

/-- `POST /auth/login` (`main.py` lines 91-118).  `verifyPw` abstracts
`auth.verify_password`; the form's `username` field carries the email. -/
def login (verifyPw : String → String → Bool) (db : DB)
    (formUsername formPassword : String) : Except HTTPError Token :=
  match db.users.find? (fun u => u.email == formUsername) with
  | none => .error badCredentials
  | some user =>
    if verifyPw formPassword user.password then
      .ok ⟨create_access_token user.email, "bearer"⟩
    else
      .error badCredentials

/-- `POST /zakat` (`main.py` lines 137-169): resolve the user, compute
`zakat_amount = amount * 0.025`, insert the document, return it. -/
def create_zakat_entry (db : DB) (newOid : String) (now : Nat) (email : String)
    (zakat : ZakatCreate) : Except HTTPError (ZakatResponse × DB) :=
  match findUserByEmail db email with
  | none => .error userNotFound
  | some user =>
    let zakat_amount := zakat.amount * zakatRate
    let zakat_doc : ZakatDoc :=
      ⟨newOid, zakat.amount, zakat.category, zakat.description,
       zakat.date.getD now, zakat_amount, user.oid, now⟩
    .ok (zakatDocToResponse zakat_doc, { db with zakat := db.zakat ++ [zakat_doc] })

/-- The sort relation of `GET /zakat`: `.sort("date", -1)`, i.e. effective
date descending. -/
def dateDesc (a b : ZakatDoc) : Prop := b.date ≤ a.date

instance : DecidableRel dateDesc := fun a b => Nat.decLe b.date a.date

instance : IsTotal ZakatDoc dateDesc := ⟨fun a b => Nat.le_total b.date a.date⟩

instance : IsTrans ZakatDoc dateDesc := ⟨fun _ _ _ h h2 => Nat.le_trans h2 h⟩

/-- `GET /zakat` (`main.py` lines 172-193): all of the caller's entries
sorted by date descending. -/
def get_zakat_entries (db : DB) (email : String) :
    Except HTTPError (List ZakatResponse) :=
  match findUserByEmail db email with
  | none => .error userNotFound
  | some user =>
    let entries :=
      List.insertionSort dateDesc (db.zakat.filter (fun z => z.user_id == user.oid))
    .ok (entries.map zakatDocToResponse)

/-- `GET /zakat/{zakat_id}` (`main.py` lines 196-229). -/
def get_zakat_entry (db : DB) (email zakat_id : String) :
    Except HTTPError ZakatResponse :=
  match findUserByEmail db email with
  | none => .error userNotFound
  | some user =>
    if isValidObjectId zakat_id then
      match findOwnedEntry db zakat_id user.oid with
      | none => .error entryNotFound
      | some entry => .ok (zakatDocToResponse entry)
    else
      .error invalidZakatId

/-- Whether the `update_data` dict of `update_zakat_entry` is empty (no
field supplied): the handler then skips `update_one`. -/
def updateDataEmpty (zakat : ZakatUpdate) : Bool :=
  zakat.amount.isNone && zakat.category.isNone &&
  zakat.description.isNone && zakat.date.isNone

/-- The `$set` of `update_zakat_entry` (`main.py` lines 265-282): each
supplied field replaces the stored one, `zakat_amount` recomputed exactly
when `amount` is supplied. -/
def applyUpdate (e : ZakatDoc) (zakat : ZakatUpdate) : ZakatDoc :=
  let e1 := match zakat.amount with
    | some a => { e with amount := a, zakat_amount := a * zakatRate }
    | none => e
  let e2 := match zakat.category with
    | some c => { e1 with category := c }
    | none => e1
  let e3 := match zakat.description with
    | some d => { e2 with description := some d }
    | none => e2
  match zakat.date with
  | some d => { e3 with date := d }
  | none => e3

/-- The zakat collection after `update_one({"_id": id}, {"$set": ...})`. -/
def updatedZakatColl (db : DB) (zakat_id : String) (zu : ZakatUpdate) : List ZakatDoc :=
  db.zakat.map (fun z => if z.oid == zakat_id then applyUpdate z zu else z)

/-- The database state after the update handler's write step: unchanged
when no field was supplied (`if update_data:` skips `update_one`), else
the collection with the `$set` applied to the matching document. -/
def updatedDB (db : DB) (zakat_id : String) (zu : ZakatUpdate) : DB :=
  if updateDataEmpty zu then db else { db with zakat := updatedZakatColl db zakat_id zu }

/-- `PUT /zakat/{zakat_id}` (`main.py` lines 232-288): resolve user, fetch
the owned entry, `$set` the supplied fields (skipped when none is
supplied), re-fetch by id and return.  A failed re-fetch would crash the
handler (`updated_entry["_id"]` on `None`), surfaced as a 500. -/
def update_zakat_entry (db : DB) (email zakat_id : String) (zakat : ZakatUpdate) :
    Except HTTPError (ZakatResponse × DB) :=
  match findUserByEmail db email with
  | none => .error userNotFound
  | some user =>
    if isValidObjectId zakat_id then
      match findOwnedEntry db zakat_id user.oid with
      | none => .error entryNotFound
      | some _ =>
        match (updatedDB db zakat_id zakat).zakat.find? (fun z => z.oid == zakat_id) with
        | none => .error ⟨500, "Internal Server Error"⟩
        | some updated => .ok (zakatDocToResponse updated, updatedDB db zakat_id zakat)
    else
      .error invalidZakatId

/-- `delete_one`: remove the first document matching the filter. -/
def removeFirst (p : ZakatDoc → Bool) : List ZakatDoc → List ZakatDoc
  | [] => []
  | z :: zs => if p z then zs else z :: removeFirst p zs

/-- `DELETE /zakat/{zakat_id}` (`main.py` lines 291-323):
`delete_one({"_id": ObjectId(zakat_id), "user_id": uid})`; 404 when
`deleted_count == 0`, else 204 with no body. -/
def delete_zakat_entry (db : DB) (email zakat_id : String) :
    Except HTTPError DB :=
  match findUserByEmail db email with
  | none => .error userNotFound
  | some user =>
    if isValidObjectId zakat_id then
      if db.zakat.any (fun z => z.oid == zakat_id && z.user_id == user.oid) then
        .ok { db with zakat :=
               removeFirst (fun z => z.oid == zakat_id && z.user_id == user.oid) db.zakat }
      else
        .error entryNotFound
    else
      .error invalidZakatId

/-- The in-place mutation of the loop body (`category_stats[category]["count"]
+= 1` etc.) on the pair holding the entry's category; other pairs are
untouched. -/
def bumpCat (e : ZakatDoc) (p : String × CatStat) : String × CatStat :=
  if p.1 == e.category then
    (p.1, ⟨p.2.count + 1, p.2.total_amount + e.amount, p.2.total_zakat + e.zakat_amount⟩)
  else p

/-- One step of the category-breakdown loop of `get_zakat_statistics`:
create the category's accumulator on first sighting, then bump count and
running sums. -/
def addToCategoryStats (stats : List (String × CatStat)) (e : ZakatDoc) :
    List (String × CatStat) :=
  if stats.any (fun p => p.1 == e.category) then
    stats.map (bumpCat e)
  else
    stats ++ [(e.category, ⟨1, e.amount, e.zakat_amount⟩)]

/-- The category breakdown: the loop over the user's entries starting from
an empty dict. -/
def categoryBreakdown (entries : List ZakatDoc) : List (String × CatStat) :=
  entries.foldl addToCategoryStats []

/-- `GET /zakat/statistics/summary` (`main.py` lines 326-365). -/
def get_zakat_statistics (db : DB) (email : String) :
    Except HTTPError StatsResponse :=
  match findUserByEmail db email with
  | none => .error userNotFound
  | some user =>
    let entries := db.zakat.filter (fun z => z.user_id == user.oid)
    .ok ⟨(entries.map (fun e => e.amount)).sum,
         (entries.map (fun e => e.zakat_amount)).sum,
         entries.length,
         categoryBreakdown entries⟩

/-- The specified per-entry invariant: the stored obligation equals the
amount times the fixed rate. -/
def entryInv (e : ZakatDoc) : Prop := e.zakat_amount = e.amount * zakatRate

/-- The aggregate a category's entries should produce: their count and the
sums of their amounts and stored obligations. -/
def statOf (l : List ZakatDoc) : CatStat :=
  ⟨l.length, (l.map (fun e => e.amount)).sum, (l.map (fun e => e.zakat_amount)).sum⟩

instance : DecidablePred entryInv :=
  fun e => inferInstanceAs (Decidable (e.zakat_amount = e.amount * zakatRate))

/-- Dictionary lookup in the category breakdown (a Python dict access,
first pair with the given key). -/
def lookupCat (c : String) (stats : List (String × CatStat)) : Option CatStat :=
  (stats.find? (fun p => p.1 == c)).map (fun p => p.2)

/-- Componentwise sum of two category accumulators. -/
def addStat (s t : CatStat) : CatStat :=
  ⟨s.count + t.count, s.total_amount + t.total_amount, s.total_zakat + t.total_zakat⟩

/-- The caller's entries as returned by `GET /zakat`: filtered to the
owner, sorted by date descending. -/
def sortedOwnedEntries (db : DB) (u : UserDoc) : List ZakatDoc :=
  List.insertionSort dateDesc (db.zakat.filter (fun z => z.user_id == u.oid))

/-- Sample user for concrete instantiations (oid is a 24-char hex id). -/
def sampleUser : UserDoc :=
  ⟨"64a000000000000000000001", "bob", "bob@example.com", "hashedpw", "Bob", 0⟩

/-- A second user owning one entry, to exercise ownership filtering. -/
def otherUser : UserDoc :=
  ⟨"64a000000000000000000002", "eve", "eve@example.com", "hashedpw2", "Eve", 0⟩

/-- The three-entry example of the spec, owned by `sampleUser`. -/
def entCash1 : ZakatDoc :=
  ⟨"64b000000000000000000001", 100, "Cash", none, 1, 5/2, "64a000000000000000000001", 0⟩

def entCash2 : ZakatDoc :=
  ⟨"64b000000000000000000002", 200, "Cash", none, 2, 5, "64a000000000000000000001", 0⟩

def entGold : ZakatDoc :=
  ⟨"64b000000000000000000003", 50, "Gold", none, 3, 5/4, "64a000000000000000000001", 0⟩

/-- An entry of the second user, invisible to `sampleUser`. -/
def entEve : ZakatDoc :=
  ⟨"64b000000000000000000004", 77, "Cash", none, 4, 77 * (25/1000), "64a000000000000000000002", 0⟩

/-- Concrete two-user database used by the witnesses. -/
def sampleDB : DB :=
  ⟨[sampleUser, otherUser], [entCash1, entCash2, entGold, entEve]⟩

/-- Claim C10: every authenticated entry operation (create, list, get,
update, delete, statistics) fails with 404 "User not found" when the
token's email resolves to no stored user; the error carries no new
database state, so the entry collection is untouched. -/
theorem user_not_found_short_circuits (db : DB) (email : String)
    (hnone : findUserByEmail db email = none) :
    (∀ newOid now z, create_zakat_entry db newOid now email z = .error userNotFound) ∧
    get_zakat_entries db email = .error userNotFound ∧
    (∀ zakat_id, get_zakat_entry db email zakat_id = .error userNotFound) ∧
    (∀ zakat_id zu, update_zakat_entry db email zakat_id zu = .error userNotFound) ∧
    (∀ zakat_id, delete_zakat_entry db email zakat_id = .error userNotFound) ∧
    get_zakat_statistics db email = .error userNotFound := by
  refine ⟨fun newOid now z => ?_, ?_, fun zakat_id => ?_, fun zakat_id zu => ?_,
          fun zakat_id => ?_, ?_⟩ <;>
    simp [create_zakat_entry, get_zakat_entries, get_zakat_entry, update_zakat_entry,
          delete_zakat_entry, get_zakat_statistics, hnone]

/-- Witness for C10 at a concrete database and an unknown email. -/
theorem user_not_found_short_circuits_witness :
    findUserByEmail sampleDB "ghost@example.com" = none ∧
    get_zakat_statistics sampleDB "ghost@example.com" = .error userNotFound ∧
    delete_zakat_entry sampleDB "ghost@example.com" "64b000000000000000000001" =
      .error userNotFound := by
  have h := user_not_found_short_circuits sampleDB "ghost@example.com" (by rfl)
  exact ⟨rfl, h.2.2.2.2.2, h.2.2.2.2.1 _⟩

/-- Claim C4: for an authenticated get-entry request, a malformed id
yields 400 "Invalid zakat ID"; a well-formed id with no entry owned by
the caller (absent or owned by another user alike) yields the single
404 "Zakat entry not found" error; a found owned entry is returned. -/
theorem get_zakat_entry_cases (db : DB) (email zakat_id : String) (u : UserDoc)
    (hu : findUserByEmail db email = some u) :
    (isValidObjectId zakat_id = false →
      get_zakat_entry db email zakat_id = .error invalidZakatId) ∧
    (isValidObjectId zakat_id = true →
      (¬ ∃ e ∈ db.zakat, e.oid = zakat_id ∧ e.user_id = u.oid) →
      get_zakat_entry db email zakat_id = .error entryNotFound) ∧
    (∀ e, isValidObjectId zakat_id = true →
      findOwnedEntry db zakat_id u.oid = some e →
      get_zakat_entry db email zakat_id = .ok (zakatDocToResponse e)) := by
  refine ⟨fun hv => ?_, fun hv habs => ?_, fun e hv hf => ?_⟩
  · simp [get_zakat_entry, hu, hv]
  · have hnone : findOwnedEntry db zakat_id u.oid = none := by
      rw [findOwnedEntry, List.find?_eq_none]
      intro z hz hp
      simp only [Bool.and_eq_true, beq_iff_eq] at hp
      exact habs ⟨z, hz, hp.1, hp.2⟩
    simp [get_zakat_entry, hu, hv, hnone]
  · simp [get_zakat_entry, hu, hv, hf]

/-- Witness for C4: a malformed id, an id owned by the other user
(reported as the same 404 as true absence), and an owned id. -/
theorem get_zakat_entry_cases_witness :
    findUserByEmail sampleDB "bob@example.com" = some sampleUser ∧
    get_zakat_entry sampleDB "bob@example.com" "oops" = .error invalidZakatId ∧
    get_zakat_entry sampleDB "bob@example.com" "64b000000000000000000004" =
      .error entryNotFound ∧
    get_zakat_entry sampleDB "bob@example.com" "64b000000000000000000001" =
      .ok (zakatDocToResponse entCash1) := by
  have h := get_zakat_entry_cases sampleDB "bob@example.com" "oops" sampleUser (by rfl)
  have h4 := get_zakat_entry_cases sampleDB "bob@example.com"
    "64b000000000000000000004" sampleUser (by rfl)
  have h1 := get_zakat_entry_cases sampleDB "bob@example.com"
    "64b000000000000000000001" sampleUser (by rfl)
  refine ⟨rfl, h.1 (by decide), h4.2.1 (by decide) ?_, h1.2.2 entCash1 (by decide) (by rfl)⟩
  intro hex
  rcases hex with ⟨e, he, hoid, hown⟩
  fin_cases he <;> simp_all [entCash1, entCash2, entGold, entEve, sampleUser]

/-- Claim C8: the login error for an unknown email and for a wrong
password are the identical 401 "Incorrect email or password" value, and
a matching password yields a token carrying the user's email. -/
theorem login_uniform_error (verifyPw : String → String → Bool) (db : DB)
    (em pw : String) :
    (db.users.find? (fun v => v.email == em) = none →
      login verifyPw db em pw = .error badCredentials) ∧
    (∀ u, db.users.find? (fun v => v.email == em) = some u →
      verifyPw pw u.password = false →
      login verifyPw db em pw = .error badCredentials) ∧
    (∀ u, db.users.find? (fun v => v.email == em) = some u →
      verifyPw pw u.password = true →
      login verifyPw db em pw = .ok ⟨create_access_token u.email, "bearer"⟩) := by
  refine ⟨fun hn => ?_, fun u hu hbad => ?_, fun u hu hok => ?_⟩
  · simp [login, hn]
  · simp [login, hu, hbad]
  · simp [login, hu, hok]

/-- Witness for C8: both failure modes produce the same error value on a
concrete database; the success case issues the email-carrying token. -/
theorem login_uniform_error_witness :
    login (fun p h => p == h) sampleDB "ghost@example.com" "x" = .error badCredentials ∧
    login (fun p h => p == h) sampleDB "bob@example.com" "wrong" = .error badCredentials ∧
    login (fun p h => p == h) sampleDB "bob@example.com" "hashedpw" =
      .ok ⟨create_access_token "bob@example.com", "bearer"⟩ := by
  refine ⟨(login_uniform_error (fun p h => p == h) sampleDB "ghost@example.com" "x").1 (by rfl),
          (login_uniform_error (fun p h => p == h) sampleDB "bob@example.com" "wrong").2.1
            sampleUser (by rfl) (by rfl),
          (login_uniform_error (fun p h => p == h) sampleDB "bob@example.com" "hashedpw").2.2
            sampleUser (by rfl) (by rfl)⟩

/-- Claim C9: registration with a taken email fails with the 400 conflict
"Email already registered" (taken username likewise, checked second), and
otherwise creates the user and returns exactly the id, username, email,
full name and creation time — the response type carries no password. -/
theorem register_cases (hashPw : String → String) (db : DB) (newOid : String)
    (now : Nat) (uc : UserCreate) :
    ((∃ u ∈ db.users, u.email = uc.email) →
      register hashPw db newOid now uc = .error ⟨400, "Email already registered"⟩) ∧
    ((¬ ∃ u ∈ db.users, u.email = uc.email) →
      (∃ u ∈ db.users, u.username = uc.username) →
      register hashPw db newOid now uc = .error ⟨400, "Username already taken"⟩) ∧
    ((¬ ∃ u ∈ db.users, u.email = uc.email) →
      (¬ ∃ u ∈ db.users, u.username = uc.username) →
      register hashPw db newOid now uc =
        .ok (⟨newOid, uc.username, uc.email, uc.full_name, now⟩,
             { db with users := db.users ++
                 [⟨newOid, uc.username, uc.email, hashPw uc.password, uc.full_name, now⟩] })) := by
  refine ⟨fun hex => ?_, fun hne hex => ?_, fun hne hnu => ?_⟩
  · obtain ⟨u, hu, he⟩ := hex
    have hs : (db.users.find? (fun v => v.email == uc.email)).isSome :=
      List.find?_isSome.mpr ⟨u, hu, by simp [he]⟩
    obtain ⟨w, hw⟩ := Option.isSome_iff_exists.mp hs
    simp [register, hw]
  · have hn : db.users.find? (fun v => v.email == uc.email) = none := by
      rw [List.find?_eq_none]
      intro v hv hb
      exact hne ⟨v, hv, by simpa using hb⟩
    obtain ⟨u, hu, he⟩ := hex
    have hs : (db.users.find? (fun v => v.username == uc.username)).isSome :=
      List.find?_isSome.mpr ⟨u, hu, by simp [he]⟩
    obtain ⟨w, hw⟩ := Option.isSome_iff_exists.mp hs
    simp [register, hn, hw]
  · have hn : db.users.find? (fun v => v.email == uc.email) = none := by
      rw [List.find?_eq_none]
      intro v hv hb
      exact hne ⟨v, hv, by simpa using hb⟩
    have hn2 : db.users.find? (fun v => v.username == uc.username) = none := by
      rw [List.find?_eq_none]
      intro v hv hb
      exact hnu ⟨v, hv, by simpa using hb⟩
    simp [register, hn, hn2]

/-- Witness for C9: duplicate email conflicts, duplicate username
conflicts, and a fresh registration succeeds without echoing a password. -/
theorem register_cases_witness :
    register (fun p => p ++ "#h") sampleDB "64a000000000000000000003" 7
      ⟨"bob2", "bob@example.com", "pw", "Bob II"⟩ =
      .error ⟨400, "Email already registered"⟩ ∧
    register (fun p => p ++ "#h") sampleDB "64a000000000000000000003" 7
      ⟨"bob", "bob2@example.com", "pw", "Bob II"⟩ =
      .error ⟨400, "Username already taken"⟩ ∧
    register (fun p => p ++ "#h") sampleDB "64a000000000000000000003" 7
      ⟨"carol", "carol@example.com", "pw", "Carol"⟩ =
      .ok (⟨"64a000000000000000000003", "carol", "carol@example.com", "Carol", 7⟩,
           { sampleDB with users := sampleDB.users ++
               [⟨"64a000000000000000000003", "carol", "carol@example.com", "pw#h", "Carol", 7⟩] }) := by
  refine ⟨(register_cases (fun p => p ++ "#h") sampleDB "64a000000000000000000003" 7
            ⟨"bob2", "bob@example.com", "pw", "Bob II"⟩).1
            ⟨sampleUser, by decide, by decide⟩,
          (register_cases (fun p => p ++ "#h") sampleDB "64a000000000000000000003" 7
            ⟨"bob", "bob2@example.com", "pw", "Bob II"⟩).2.1 ?_
            ⟨sampleUser, by decide, by decide⟩,
          (register_cases (fun p => p ++ "#h") sampleDB "64a000000000000000000003" 7
            ⟨"carol", "carol@example.com", "pw", "Carol"⟩).2.2 ?_ ?_⟩
  · intro hex
    rcases hex with ⟨v, hv, he⟩
    fin_cases hv <;> simp_all [sampleUser, otherUser]
  · intro hex
    rcases hex with ⟨v, hv, he⟩
    fin_cases hv <;> simp_all [sampleUser, otherUser]
  · intro hex
    rcases hex with ⟨v, hv, he⟩
    fin_cases hv <;> simp_all [sampleUser, otherUser]

/-- Counterexample to claim C3: `ZakatCreate` carries no positivity
constraint, so a creation request with amount −100 is not rejected — the
calculator runs on it and an entry with negative amount is stored. -/
theorem create_negative_amount_counterexample :
    create_zakat_entry sampleDB "64b000000000000000000005" 9 "bob@example.com"
      ⟨-100, "Cash", none, none⟩ =
      .ok (⟨"64b000000000000000000005", -100, "Cash", none, 9, -100 * zakatRate,
            "64a000000000000000000001"⟩,
           ⟨sampleDB.users,
            sampleDB.zakat ++ [⟨"64b000000000000000000005", -100, "Cash", none, 9,
                               -100 * zakatRate, "64a000000000000000000001", 9⟩]⟩) ∧
    ((-100 : ℚ) < 0) ∧ (-100 : ℚ) * zakatRate = -5/2 := by
  refine ⟨rfl, by norm_num, by norm_num [zakatRate]⟩

/-- Claim C3 (amended): the model performs no amount validation — every
creation request from a known user succeeds, for negative amounts too,
with the calculator applied to the supplied amount as given. -/
theorem create_no_amount_validation (db : DB) (newOid : String) (now : Nat)
    (email : String) (u : UserDoc) (z : ZakatCreate)
    (hu : findUserByEmail db email = some u) :
    create_zakat_entry db newOid now email z =
      .ok (⟨newOid, z.amount, z.category, z.description, z.date.getD now,
            z.amount * zakatRate, u.oid⟩,
           { db with zakat := db.zakat ++
               [⟨newOid, z.amount, z.category, z.description, z.date.getD now,
                 z.amount * zakatRate, u.oid, now⟩] }) := by
  simp [create_zakat_entry, hu, zakatDocToResponse]

/-- Witness for the amended C3 at a negative concrete amount. -/
theorem create_no_amount_validation_witness :
    findUserByEmail sampleDB "bob@example.com" = some sampleUser ∧
    create_zakat_entry sampleDB "64b000000000000000000006" 9 "bob@example.com"
      ⟨-7, "Gold", none, some 4⟩ =
      .ok (⟨"64b000000000000000000006", -7, "Gold", none, 4, -7 * zakatRate,
            sampleUser.oid⟩,
           { sampleDB with zakat := sampleDB.zakat ++
               [⟨"64b000000000000000000006", -7, "Gold", none, 4, -7 * zakatRate,
                 sampleUser.oid, 9⟩] }) :=
  ⟨rfl, create_no_amount_validation sampleDB "64b000000000000000000006" 9
    "bob@example.com" sampleUser ⟨-7, "Gold", none, some 4⟩ rfl⟩

/-- `applyUpdate` preserves the obligation invariant: either it recomputes
the obligation from the new amount, or it leaves both fields alone. -/
theorem applyUpdate_entryInv (z : ZakatDoc) (zu : ZakatUpdate)
    (h : entryInv z) : entryInv (applyUpdate z zu) := by
  rcases zu with ⟨a, c, d, t⟩
  cases a <;> cases c <;> cases d <;> cases t <;>
    simp_all [applyUpdate, entryInv]

/-- Claim C1: if every stored entry satisfies `zakat_amount = amount *
0.025`, then after any successful create (which computes the obligation
from the supplied amount) or any successful update (which recomputes it
exactly when an amount is supplied) every stored entry still does. -/
theorem obligation_invariant_preserved (db : DB)
    (hinv : ∀ e ∈ db.zakat, entryInv e) :
    (∀ newOid now email z r db2,
      create_zakat_entry db newOid now email z = .ok (r, db2) →
      ∀ e ∈ db2.zakat, entryInv e) ∧
    (∀ email zakat_id zu r db2,
      update_zakat_entry db email zakat_id zu = .ok (r, db2) →
      ∀ e ∈ db2.zakat, entryInv e) := by
  constructor
  · intro newOid now email z r db2 h e he
    rw [create_zakat_entry] at h
    cases hfu : findUserByEmail db email with
    | none => rw [hfu] at h; exact absurd h (by simp)
    | some u =>
      rw [hfu] at h
      simp only [Except.ok.injEq, Prod.mk.injEq] at h
      obtain ⟨-, hdb⟩ := h
      subst hdb
      rcases List.mem_append.mp he with hmem | hmem
      · exact hinv e hmem
      · simp only [List.mem_singleton] at hmem
        subst hmem
        rfl
  · intro email zakat_id zu r db2 h e he
    rw [update_zakat_entry] at h
    split at h
    · exact absurd h (by simp)
    · split at h
      · split at h
        · exact absurd h (by simp)
        · split at h
          · exact absurd h (by simp)
          · simp only [Except.ok.injEq, Prod.mk.injEq] at h
            obtain ⟨-, hdb⟩ := h
            subst hdb
            rw [updatedDB] at he
            by_cases hemp : updateDataEmpty zu = true
            · rw [if_pos hemp] at he
              exact hinv e he
            · rw [if_neg hemp] at he
              obtain ⟨w, hw, hwe⟩ := List.mem_map.mp he
              subst hwe
              by_cases hmatch : (w.oid == zakat_id) = true
              · rw [if_pos hmatch]
                exact applyUpdate_entryInv w zu (hinv w hw)
              · rw [if_neg hmatch]
                exact hinv w hw
      · exact absurd h (by simp)

/-- Witness for C1: the invariant holds on the sample database and on the
entry stored by a concrete create (40 × 0.025 = 1). -/
theorem obligation_invariant_preserved_witness :
    (∀ e ∈ sampleDB.zakat, entryInv e) ∧
    entryInv ⟨"64b000000000000000000007", 40, "Cash", none, 9, 40 * zakatRate,
              "64a000000000000000000001", 9⟩ := by
  have hinv : ∀ e ∈ sampleDB.zakat, entryInv e := by
    intro e he
    fin_cases he <;> norm_num [entryInv, entCash1, entCash2, entGold, entEve, zakatRate]
  refine ⟨hinv, ?_⟩
  exact (obligation_invariant_preserved sampleDB hinv).1
    "64b000000000000000000007" 9 "bob@example.com" ⟨40, "Cash", none, none⟩
    (zakatDocToResponse ⟨"64b000000000000000000007", 40, "Cash", none, 9, 40 * zakatRate,
                         "64a000000000000000000001", 9⟩)
    ⟨sampleDB.users, sampleDB.zakat ++ [⟨"64b000000000000000000007", 40, "Cash", none, 9,
                     40 * zakatRate, "64a000000000000000000001", 9⟩]⟩
    (by rfl)
    ⟨"64b000000000000000000007", 40, "Cash", none, 9, 40 * zakatRate,
     "64a000000000000000000001", 9⟩
    (by simp)

/-- Claim C7: the list operation returns exactly the caller's entries —
a permutation of the ownership-filtered collection, hence no other
user's entry — sorted by effective date descending. -/
theorem get_zakat_entries_correct (db : DB) (email : String) (u : UserDoc)
    (hu : findUserByEmail db email = some u) :
    get_zakat_entries db email =
      .ok ((sortedOwnedEntries db u).map zakatDocToResponse) ∧
    List.Perm (sortedOwnedEntries db u)
      (db.zakat.filter (fun z => z.user_id == u.oid)) ∧
    (sortedOwnedEntries db u).Sorted dateDesc ∧
    (∀ z, z ∈ sortedOwnedEntries db u ↔ z ∈ db.zakat ∧ z.user_id = u.oid) := by
  refine ⟨?_, List.perm_insertionSort _ _, List.sorted_insertionSort _ _, fun z => ?_⟩
  · simp [get_zakat_entries, hu, sortedOwnedEntries]
  · rw [sortedOwnedEntries, (List.perm_insertionSort dateDesc
      (db.zakat.filter (fun w => w.user_id == u.oid))).mem_iff]
    simp [List.mem_filter]

/-- Witness for C7 on the sample database: the other user's entry is
absent and the result is date-descending. -/
theorem get_zakat_entries_correct_witness :
    findUserByEmail sampleDB "bob@example.com" = some sampleUser ∧
    get_zakat_entries sampleDB "bob@example.com" =
      .ok ((sortedOwnedEntries sampleDB sampleUser).map zakatDocToResponse) ∧
    (sortedOwnedEntries sampleDB sampleUser).Sorted dateDesc ∧
    (entEve ∈ sortedOwnedEntries sampleDB sampleUser ↔
      entEve ∈ sampleDB.zakat ∧ entEve.user_id = sampleUser.oid) := by
  have h := get_zakat_entries_correct sampleDB "bob@example.com" sampleUser (by rfl)
  exact ⟨rfl, h.1, h.2.2.1, h.2.2.2 entEve⟩

/-- Everything `delete_one` leaves behind was already in the collection. -/
theorem mem_of_mem_removeFirst (p : ZakatDoc → Bool) :
    ∀ (l : List ZakatDoc), ∀ e ∈ removeFirst p l, e ∈ l := by
  intro l
  induction l with
  | nil => intro e he; exact absurd he (by simp [removeFirst])
  | cons z zs ih =>
    intro e he
    rw [removeFirst] at he
    by_cases hz : p z = true
    · rw [if_pos hz] at he
      exact List.mem_cons_of_mem z he
    · rw [if_neg hz] at he
      rcases List.mem_cons.mp he with rfl | h2
      · exact List.mem_cons_self _ _
      · exact List.mem_cons_of_mem z (ih e h2)

/-- When document ids are unique and a matching owned document exists,
`delete_one` on the id-and-owner filter removes the only document with
that id: nothing with the id survives. -/
theorem removeFirst_oid_complete (zakat_id uid : String) :
    ∀ (l : List ZakatDoc), (l.map (fun z => z.oid)).Nodup →
    (∃ e0 ∈ l, (e0.oid == zakat_id && e0.user_id == uid) = true) →
    ∀ e ∈ removeFirst (fun z => z.oid == zakat_id && z.user_id == uid) l,
      e.oid ≠ zakat_id := by
  intro l
  induction l with
  | nil =>
    rintro - ⟨e0, he0, -⟩
    exact absurd he0 (List.not_mem_nil e0)
  | cons z zs ih =>
    intro hnd hex e he
    rw [List.map_cons] at hnd
    have hndhead := (List.nodup_cons.mp hnd).1
    have hndtail := (List.nodup_cons.mp hnd).2
    rw [removeFirst] at he
    by_cases hz : (z.oid == zakat_id && z.user_id == uid) = true
    · rw [if_pos hz] at he
      have hzoid : z.oid = zakat_id := by
        simp only [Bool.and_eq_true, beq_iff_eq] at hz
        exact hz.1
      intro hcon
      apply hndhead
      rw [hzoid, ← hcon]
      exact List.mem_map_of_mem _ he
    · rw [if_neg hz] at he
      rcases List.mem_cons.mp he with rfl | he2
      · intro hcon
        rcases hex with ⟨e0, he0, hp0⟩
        rcases List.mem_cons.mp he0 with rfl | he0t
        · exact hz hp0
        · have he0oid : e0.oid = zakat_id := by
            simp only [Bool.and_eq_true, beq_iff_eq] at hp0
            exact hp0.1
          apply hndhead
          rw [hcon, ← he0oid]
          exact List.mem_map_of_mem _ he0t
      · rcases hex with ⟨e0, he0, hp0⟩
        rcases List.mem_cons.mp he0 with rfl | he0t
        · exact absurd hp0 hz
        · exact ih hndtail ⟨e0, he0t, hp0⟩ e he2

/-- Claim C6: for a well-formed id (ids unique in the store), deleting an
existing owned entry succeeds, after which no entry with that id remains
and a second identical delete fails with 404; deleting when no owned
entry with the id exists fails with 404 immediately. -/
theorem delete_zakat_entry_correct (db : DB) (email zakat_id : String) (u : UserDoc)
    (hu : findUserByEmail db email = some u)
    (hv : isValidObjectId zakat_id = true)
    (hnd : (db.zakat.map (fun z => z.oid)).Nodup) :
    ((∃ e ∈ db.zakat, e.oid = zakat_id ∧ e.user_id = u.oid) →
      delete_zakat_entry db email zakat_id =
        .ok ⟨db.users,
             removeFirst (fun z => z.oid == zakat_id && z.user_id == u.oid) db.zakat⟩ ∧
      (∀ e ∈ removeFirst (fun z => z.oid == zakat_id && z.user_id == u.oid) db.zakat,
        e.oid ≠ zakat_id) ∧
      delete_zakat_entry
        ⟨db.users, removeFirst (fun z => z.oid == zakat_id && z.user_id == u.oid) db.zakat⟩
        email zakat_id = .error entryNotFound) ∧
    ((¬ ∃ e ∈ db.zakat, e.oid = zakat_id ∧ e.user_id = u.oid) →
      delete_zakat_entry db email zakat_id = .error entryNotFound) := by
  constructor
  · intro hex
    obtain ⟨e0, he0, hoid, hown⟩ := hex
    have hp0 : (e0.oid == zakat_id && e0.user_id == u.oid) = true := by
      simp [hoid, hown]
    have hany : db.zakat.any (fun z => z.oid == zakat_id && z.user_id == u.oid) = true :=
      List.any_eq_true.mpr ⟨e0, he0, hp0⟩
    have hrm := removeFirst_oid_complete zakat_id u.oid db.zakat hnd ⟨e0, he0, hp0⟩
    refine ⟨?_, hrm, ?_⟩
    · simp [delete_zakat_entry, hu, hv, hany]
    · have hu2 : findUserByEmail
        ⟨db.users, removeFirst (fun z => z.oid == zakat_id && z.user_id == u.oid) db.zakat⟩
        email = some u := hu
      have hany2 : (removeFirst (fun z => z.oid == zakat_id && z.user_id == u.oid)
          db.zakat).any (fun z => z.oid == zakat_id && z.user_id == u.oid) = false := by
        rw [Bool.eq_false_iff]
        intro hc
        obtain ⟨e, he, hpe⟩ := List.any_eq_true.mp hc
        have : e.oid = zakat_id := by
          simp only [Bool.and_eq_true, beq_iff_eq] at hpe
          exact hpe.1
        exact hrm e he this
      simp [delete_zakat_entry, hu2, hv, hany2]
  · intro hnex
    have hany : db.zakat.any (fun z => z.oid == zakat_id && z.user_id == u.oid) = false := by
      rw [Bool.eq_false_iff]
      intro hc
      obtain ⟨e, he, hpe⟩ := List.any_eq_true.mp hc
      refine hnex ⟨e, he, ?_⟩
      simp only [Bool.and_eq_true, beq_iff_eq] at hpe
      exact hpe
    simp [delete_zakat_entry, hu, hv, hany]

/-- Witness for C6: first delete succeeds, repeating it yields 404, and
deleting an id that never existed yields 404. -/
theorem delete_zakat_entry_correct_witness :
    delete_zakat_entry sampleDB "bob@example.com" "64b000000000000000000001" =
      .ok ⟨sampleDB.users,
           removeFirst (fun z => z.oid == "64b000000000000000000001" &&
             z.user_id == sampleUser.oid) sampleDB.zakat⟩ ∧
    delete_zakat_entry
      ⟨sampleDB.users, removeFirst (fun z => z.oid == "64b000000000000000000001" &&
        z.user_id == sampleUser.oid) sampleDB.zakat⟩
      "bob@example.com" "64b000000000000000000001" = .error entryNotFound ∧
    delete_zakat_entry sampleDB "bob@example.com" "64b000000000000000000009" =
      .error entryNotFound := by
  have h := delete_zakat_entry_correct sampleDB "bob@example.com"
    "64b000000000000000000001" sampleUser (by rfl) (by decide) (by decide)
  have h9 := delete_zakat_entry_correct sampleDB "bob@example.com"
    "64b000000000000000000009" sampleUser (by rfl) (by decide) (by decide)
  have hex : ∃ e ∈ sampleDB.zakat, e.oid = "64b000000000000000000001" ∧
      e.user_id = sampleUser.oid :=
    ⟨entCash1, by simp [sampleDB], rfl, rfl⟩
  have hnex : ¬ ∃ e ∈ sampleDB.zakat, e.oid = "64b000000000000000000009" ∧
      e.user_id = sampleUser.oid := by
    rintro ⟨e, he, hoid, -⟩
    have he2 : e ∈ [entCash1, entCash2, entGold, entEve] := he
    fin_cases he2 <;> exact absurd hoid (by decide)
  exact ⟨(h.1 hex).1, (h.1 hex).2.2, h9.2 hnex⟩

/-- `applyUpdate` never touches the id. -/
theorem applyUpdate_oid (e : ZakatDoc) (zu : ZakatUpdate) :
    (applyUpdate e zu).oid = e.oid := by
  rcases zu with ⟨a, c, d, t⟩
  cases a <;> cases c <;> cases d <;> cases t <;> simp [applyUpdate]

/-- `applyUpdate` field-by-field: supplied fields replaced, unsupplied
ones kept, the obligation recomputed exactly when an amount is supplied,
and owner/creation metadata untouched. -/
theorem applyUpdate_fields (e : ZakatDoc) (zu : ZakatUpdate) :
    (applyUpdate e zu).amount = zu.amount.getD e.amount ∧
    (applyUpdate e zu).category = zu.category.getD e.category ∧
    (applyUpdate e zu).description =
      (match zu.description with | some d => some d | none => e.description) ∧
    (applyUpdate e zu).date = zu.date.getD e.date ∧
    (applyUpdate e zu).zakat_amount =
      (match zu.amount with | some a => a * zakatRate | none => e.zakat_amount) ∧
    (applyUpdate e zu).user_id = e.user_id ∧
    (applyUpdate e zu).created_at = e.created_at := by
  rcases zu with ⟨a, c, d, t⟩
  cases a <;> cases c <;> cases d <;> cases t <;> simp [applyUpdate]

/-- An all-`None` partial body leaves the document untouched. -/
theorem applyUpdate_empty (e : ZakatDoc) (zu : ZakatUpdate)
    (h : updateDataEmpty zu = true) : applyUpdate e zu = e := by
  rcases zu with ⟨a, c, d, t⟩
  simp only [updateDataEmpty, Bool.and_eq_true, Option.isNone_iff_eq_none] at h
  obtain ⟨⟨⟨ha, hc⟩, hd⟩, ht⟩ := h
  subst ha hc hd ht
  simp [applyUpdate]

/-- `find?` commutes with a map that preserves the predicate. -/
theorem find?_map_pred_invariant {α : Type} (p : α → Bool) (f : α → α)
    (hf : ∀ z, p (f z) = p z) :
    ∀ l : List α, (l.map f).find? p = (l.find? p).map f := by
  intro l
  induction l with
  | nil => rfl
  | cons z zs ih =>
    rw [List.map_cons]
    by_cases hz : p z = true
    · rw [List.find?_cons_of_pos _ (by rw [hf z]; exact hz),
          List.find?_cons_of_pos _ hz]
      rfl
    · rw [List.find?_cons_of_neg _ (by rw [hf z]; exact hz),
          List.find?_cons_of_neg _ hz]
      exact ih

/-- With unique ids, the document found by the id-and-owner filter is
also the one found by the id-only filter (the update's re-fetch). -/
theorem find?_oid_of_owned (zakat_id uid : String) :
    ∀ l : List ZakatDoc, (l.map (fun z => z.oid)).Nodup →
    ∀ e, l.find? (fun z => z.oid == zakat_id && z.user_id == uid) = some e →
    l.find? (fun z => z.oid == zakat_id) = some e := by
  intro l
  induction l with
  | nil => intro _ e he; exact absurd he (by simp)
  | cons z zs ih =>
    intro hnd e he
    rw [List.map_cons] at hnd
    have hndhead := (List.nodup_cons.mp hnd).1
    have hndtail := (List.nodup_cons.mp hnd).2
    by_cases hz : (z.oid == zakat_id && z.user_id == uid) = true
    · rw [List.find?_cons, hz] at he
      injection he with he
      subst he
      have hzo : (z.oid == zakat_id) = true := by
        simp only [Bool.and_eq_true] at hz
        exact hz.1
      rw [List.find?_cons, hzo]
    · rw [List.find?_cons, Bool.eq_false_iff.mpr hz] at he
      have hein : e ∈ zs := List.mem_of_find?_eq_some he
      have heoid : e.oid = zakat_id := by
        have := List.find?_some he
        simp only [Bool.and_eq_true, beq_iff_eq] at this
        exact this.1
      by_cases hzo : (z.oid == zakat_id) = true
      · exfalso
        apply hndhead
        have hzz : z.oid = e.oid := by
          rw [heoid]
          exact beq_iff_eq.mp hzo
        rw [hzz]
        exact List.mem_map_of_mem _ hein
      · rw [List.find?_cons, Bool.eq_false_iff.mpr hzo]
        exact ih hndtail e he

/-- Claim C5: an authenticated update of an existing owned entry (ids
unique, id well-formed) succeeds with exactly the supplied fields
replaced — obligation recomputed iff amount supplied, other entries and
the owner/creation metadata untouched — and an empty partial body leaves
the database unchanged and still returns the unchanged entry. -/
theorem update_zakat_entry_correct (db : DB) (email zakat_id : String)
    (zu : ZakatUpdate) (u : UserDoc) (e : ZakatDoc)
    (hu : findUserByEmail db email = some u)
    (hv : isValidObjectId zakat_id = true)
    (hnd : (db.zakat.map (fun z => z.oid)).Nodup)
    (he : findOwnedEntry db zakat_id u.oid = some e) :
    update_zakat_entry db email zakat_id zu =
      .ok (zakatDocToResponse (applyUpdate e zu), updatedDB db zakat_id zu) ∧
    (updateDataEmpty zu = true →
      applyUpdate e zu = e ∧ updatedDB db zakat_id zu = db) ∧
    (∀ z ∈ db.zakat, z.oid ≠ zakat_id → z ∈ (updatedDB db zakat_id zu).zakat) ∧
    (applyUpdate e zu).amount = zu.amount.getD e.amount ∧
    (applyUpdate e zu).category = zu.category.getD e.category ∧
    (applyUpdate e zu).description =
      (match zu.description with | some d => some d | none => e.description) ∧
    (applyUpdate e zu).date = zu.date.getD e.date ∧
    (applyUpdate e zu).zakat_amount =
      (match zu.amount with | some a => a * zakatRate | none => e.zakat_amount) ∧
    (applyUpdate e zu).oid = e.oid ∧
    (applyUpdate e zu).user_id = e.user_id ∧
    (applyUpdate e zu).created_at = e.created_at := by
  have hflds := applyUpdate_fields e zu
  have heoid : (e.oid == zakat_id) = true := by
    have := List.find?_some he
    simp only [Bool.and_eq_true] at this
    exact this.1
  have hff : (updatedDB db zakat_id zu).zakat.find? (fun z => z.oid == zakat_id) =
      some (applyUpdate e zu) := by
    rw [updatedDB]
    by_cases hemp : updateDataEmpty zu = true
    · rw [if_pos hemp, applyUpdate_empty e zu hemp]
      exact find?_oid_of_owned zakat_id u.oid db.zakat hnd e he
    · rw [if_neg hemp]
      have hbase : db.zakat.find? (fun z => z.oid == zakat_id) = some e :=
        find?_oid_of_owned zakat_id u.oid db.zakat hnd e he
      have hmap := find?_map_pred_invariant (fun z => z.oid == zakat_id)
        (fun z => if z.oid == zakat_id then applyUpdate z zu else z)
        (by
          intro z
          by_cases hz : (z.oid == zakat_id) = true
          · simp [hz, applyUpdate_oid]
          · simp [hz]) db.zakat
      show (updatedZakatColl db zakat_id zu).find? (fun z => z.oid == zakat_id) = _
      rw [updatedZakatColl, hmap, hbase]
      simp [heoid]
      exact fun hcon => absurd (beq_iff_eq.mp heoid) hcon
  refine ⟨?_, fun hemp => ⟨applyUpdate_empty e zu hemp, by rw [updatedDB, if_pos hemp]⟩,
          ?_, hflds.1, hflds.2.1, hflds.2.2.1, hflds.2.2.2.1, hflds.2.2.2.2.1,
          applyUpdate_oid e zu, hflds.2.2.2.2.2.1, hflds.2.2.2.2.2.2⟩
  · simp [update_zakat_entry, hu, hv, he, hff]
  · intro z hz hne
    rw [updatedDB]
    by_cases hemp : updateDataEmpty zu = true
    · rw [if_pos hemp]
      exact hz
    · rw [if_neg hemp]
      show z ∈ updatedZakatColl db zakat_id zu
      rw [updatedZakatColl]
      refine List.mem_map.mpr ⟨z, hz, ?_⟩
      rw [if_neg (by simp [hne])]

/-- Witness for C5: supplying only an amount recomputes the obligation
and keeps the category; an empty body returns the unchanged entry and
database. -/
theorem update_zakat_entry_correct_witness :
    update_zakat_entry sampleDB "bob@example.com" "64b000000000000000000001"
      ⟨some 60, none, none, none⟩ =
      .ok (zakatDocToResponse (applyUpdate entCash1 ⟨some 60, none, none, none⟩),
           updatedDB sampleDB "64b000000000000000000001" ⟨some 60, none, none, none⟩) ∧
    (applyUpdate entCash1 ⟨some 60, none, none, none⟩).amount = 60 ∧
    (applyUpdate entCash1 ⟨some 60, none, none, none⟩).zakat_amount = 60 * zakatRate ∧
    (applyUpdate entCash1 ⟨some 60, none, none, none⟩).category = "Cash" ∧
    update_zakat_entry sampleDB "bob@example.com" "64b000000000000000000001"
      ⟨none, none, none, none⟩ = .ok (zakatDocToResponse entCash1, sampleDB) := by
  have h := update_zakat_entry_correct sampleDB "bob@example.com"
    "64b000000000000000000001" ⟨some 60, none, none, none⟩ sampleUser entCash1
    (by rfl) (by decide) (by decide) (by rfl)
  have h0 := update_zakat_entry_correct sampleDB "bob@example.com"
    "64b000000000000000000001" ⟨none, none, none, none⟩ sampleUser entCash1
    (by rfl) (by decide) (by decide) (by rfl)
  obtain ⟨ha, hb⟩ := h0.2.1 rfl
  have hmain := h0.1
  rw [ha, hb] at hmain
  exact ⟨h.1, h.2.2.2.1, h.2.2.2.2.2.2.2.1, h.2.2.2.2.1, hmain⟩

/-- `bumpCat` preserves the dictionary key. -/
theorem bumpCat_fst (e : ZakatDoc) (p : String × CatStat) : (bumpCat e p).1 = p.1 := by
  rw [bumpCat]
  split <;> rfl

/-- Bumping the accumulator of `e.category` does not affect lookups of
other categories (keys are preserved by the in-place update). -/
theorem lookupCat_map_ne (e : ZakatDoc) (c : String) (hne : c ≠ e.category)
    (stats : List (String × CatStat)) :
    lookupCat c (stats.map (bumpCat e)) = lookupCat c stats := by
  rw [lookupCat, lookupCat,
      find?_map_pred_invariant (fun p => p.1 == c) (bumpCat e)
        (fun z => by
          show ((bumpCat e z).1 == c) = (z.1 == c)
          rw [bumpCat_fst])]
  cases h : stats.find? (fun p => p.1 == c) with
  | none => rfl
  | some p =>
    have hp1 : p.1 = c := by simpa using List.find?_some h
    simp only [Option.map_some']
    rw [bumpCat, if_neg (fun hcon => hne (hp1 ▸ beq_iff_eq.mp hcon))]

/-- Bumping the accumulator of `e.category` updates exactly that
category's lookup. -/
theorem lookupCat_map_self (e : ZakatDoc) (stats : List (String × CatStat)) :
    lookupCat e.category (stats.map (bumpCat e)) =
    (lookupCat e.category stats).map (fun s =>
      ⟨s.count + 1, s.total_amount + e.amount, s.total_zakat + e.zakat_amount⟩) := by
  rw [lookupCat, lookupCat,
      find?_map_pred_invariant (fun p => p.1 == e.category) (bumpCat e)
        (fun z => by
          show ((bumpCat e z).1 == e.category) = (z.1 == e.category)
          rw [bumpCat_fst])]
  cases h : stats.find? (fun p => p.1 == e.category) with
  | none => rfl
  | some p =>
    have hp1 : p.1 = e.category := by simpa using List.find?_some h
    simp only [Option.map_some']
    rw [bumpCat, if_pos (beq_iff_eq.mpr hp1)]

/-- One loop iteration leaves lookups of other categories unchanged. -/
theorem lookupCat_add_ne (stats : List (String × CatStat)) (e : ZakatDoc)
    (c : String) (hne : c ≠ e.category) :
    lookupCat c (addToCategoryStats stats e) = lookupCat c stats := by
  rw [addToCategoryStats]
  by_cases hany : stats.any (fun p => p.1 == e.category) = true
  · rw [if_pos hany]
    exact lookupCat_map_ne e c hne stats
  · rw [if_neg hany]
    have hec : (e.category == c) = false := beq_eq_false_iff_ne.mpr (Ne.symm hne)
    simp only [lookupCat, List.find?_append]
    cases h : stats.find? (fun p => p.1 == c) with
    | some p => simp
    | none => simp [List.find?_cons, hec]

/-- One loop iteration creates or bumps exactly the accumulator of the
entry's own category. -/
theorem lookupCat_add_self (stats : List (String × CatStat)) (e : ZakatDoc) :
    lookupCat e.category (addToCategoryStats stats e) =
      some (match lookupCat e.category stats with
            | some s => ⟨s.count + 1, s.total_amount + e.amount,
                         s.total_zakat + e.zakat_amount⟩
            | none => ⟨1, e.amount, e.zakat_amount⟩) := by
  rw [addToCategoryStats]
  by_cases hany : stats.any (fun p => p.1 == e.category) = true
  · rw [if_pos hany, lookupCat_map_self]
    have hsome : (stats.find? (fun p => p.1 == e.category)).isSome :=
      List.find?_isSome.mpr (List.any_eq_true.mp hany)
    obtain ⟨p, hp⟩ := Option.isSome_iff_exists.mp hsome
    simp [lookupCat, hp]
  · rw [if_neg hany]
    have hnone : stats.find? (fun p => p.1 == e.category) = none := by
      rw [List.find?_eq_none]
      intro p hp hpp
      exact hany (List.any_eq_true.mpr ⟨p, hp, hpp⟩)
    simp [lookupCat, List.find?_append, hnone, List.find?_cons]

/-- The breakdown loop, run from any starting accumulator: each category's
final lookup combines its starting accumulator with the count and sums of
exactly the entries bearing that label. -/
theorem lookupCat_foldl (c : String) :
    ∀ (entries : List ZakatDoc) (stats : List (String × CatStat)),
    lookupCat c (entries.foldl addToCategoryStats stats) =
      (match lookupCat c stats with
       | some s => some (addStat s (statOf (entries.filter (fun z => z.category == c))))
       | none =>
         if (entries.filter (fun z => z.category == c)).isEmpty then none
         else some (statOf (entries.filter (fun z => z.category == c)))) := by
  intro entries
  induction entries with
  | nil =>
    intro stats
    simp only [List.foldl_nil, List.filter_nil, List.isEmpty_nil, if_true]
    cases h : lookupCat c stats with
    | none => rfl
    | some s => simp [addStat, statOf]
  | cons e rest ih =>
    intro stats
    rw [List.foldl_cons, ih (addToCategoryStats stats e)]
    by_cases hc : e.category = c
    · subst hc
      rw [lookupCat_add_self, List.filter_cons_of_pos (by simp)]
      cases h : lookupCat e.category stats with
      | some s =>
        simp only [addStat, statOf, List.length_cons, List.map_cons, List.sum_cons,
                   Option.some.injEq, CatStat.mk.injEq]
        refine ⟨by omega, by ring_nf, by ring_nf⟩
      | none =>
        simp only [List.isEmpty_cons, Bool.false_eq_true, if_false, addStat, statOf,
                   List.length_cons, List.map_cons, List.sum_cons, Option.some.injEq,
                   CatStat.mk.injEq]
        refine ⟨by omega, by ring_nf, by ring_nf⟩
    · rw [lookupCat_add_ne stats e c (fun h => hc h.symm),
          List.filter_cons_of_neg (by simp [hc])]

/-- Claim C2: the statistics handler returns the sum of the caller's
entry amounts, the sum of their stored obligations, their count, and a
breakdown whose lookup at any category present equals the count/sums of
exactly the entries with that label (and is absent otherwise); zero
entries give zero totals and an empty breakdown. -/
theorem get_zakat_statistics_correct (db : DB) (email : String) (u : UserDoc)
    (c : String) (hu : findUserByEmail db email = some u) :
    ∃ stats, get_zakat_statistics db email = .ok stats ∧
      stats.total_amount =
        ((db.zakat.filter (fun z => z.user_id == u.oid)).map (fun e => e.amount)).sum ∧
      stats.total_zakat =
        ((db.zakat.filter (fun z => z.user_id == u.oid)).map (fun e => e.zakat_amount)).sum ∧
      stats.total_entries = (db.zakat.filter (fun z => z.user_id == u.oid)).length ∧
      lookupCat c stats.category_breakdown =
        (if ((db.zakat.filter (fun z => z.user_id == u.oid)).filter
              (fun z => z.category == c)).isEmpty then none
         else some (statOf ((db.zakat.filter (fun z => z.user_id == u.oid)).filter
              (fun z => z.category == c)))) ∧
      (db.zakat.filter (fun z => z.user_id == u.oid) = [] →
        stats = ⟨0, 0, 0, []⟩) := by
  refine ⟨⟨((db.zakat.filter (fun z => z.user_id == u.oid)).map (fun e => e.amount)).sum,
           ((db.zakat.filter (fun z => z.user_id == u.oid)).map (fun e => e.zakat_amount)).sum,
           (db.zakat.filter (fun z => z.user_id == u.oid)).length,
           categoryBreakdown (db.zakat.filter (fun z => z.user_id == u.oid))⟩,
         ?_, rfl, rfl, rfl, ?_, ?_⟩
  · simp [get_zakat_statistics, hu]
  · rw [categoryBreakdown, lookupCat_foldl c]
    rfl
  · intro h0
    simp [h0, categoryBreakdown]

/-- Witness for C2 on the spec's three-entry example: totals 350, 8.75, 3
with Cash ↦ (2, 300, 7.5), Gold ↦ (1, 50, 1.25) and no other label. -/
theorem get_zakat_statistics_correct_witness :
    findUserByEmail sampleDB "bob@example.com" = some sampleUser ∧
    lookupCat "Cash" (categoryBreakdown [entCash1, entCash2, entGold]) =
      some ⟨2, 300, 15/2⟩ ∧
    lookupCat "Gold" (categoryBreakdown [entCash1, entCash2, entGold]) =
      some ⟨1, 50, 5/4⟩ ∧
    lookupCat "Silver" (categoryBreakdown [entCash1, entCash2, entGold]) = none := by
  have hcash := get_zakat_statistics_correct sampleDB "bob@example.com" sampleUser
    "Cash" rfl
  have hgold := get_zakat_statistics_correct sampleDB "bob@example.com" sampleUser
    "Gold" rfl
  have hsilver := get_zakat_statistics_correct sampleDB "bob@example.com" sampleUser
    "Silver" rfl
  obtain ⟨s1, hok1, -, -, -, hc1, -⟩ := hcash
  obtain ⟨s2, hok2, -, -, -, hc2, -⟩ := hgold
  obtain ⟨s3, hok3, -, -, -, hc3, -⟩ := hsilver
  have hcomp : get_zakat_statistics sampleDB "bob@example.com" =
      .ok ⟨((sampleDB.zakat.filter (fun z => z.user_id == sampleUser.oid)).map
              (fun e => e.amount)).sum,
           ((sampleDB.zakat.filter (fun z => z.user_id == sampleUser.oid)).map
              (fun e => e.zakat_amount)).sum,
           (sampleDB.zakat.filter (fun z => z.user_id == sampleUser.oid)).length,
           categoryBreakdown [entCash1, entCash2, entGold]⟩ := rfl
  have hb1 : s1.category_breakdown = categoryBreakdown [entCash1, entCash2, entGold] := by
    have h2 := hcomp
    rw [hok1] at h2
    exact congrArg StatsResponse.category_breakdown (Except.ok.inj h2)
  have hb2 : s2.category_breakdown = categoryBreakdown [entCash1, entCash2, entGold] := by
    have h2 := hcomp
    rw [hok2] at h2
    exact congrArg StatsResponse.category_breakdown (Except.ok.inj h2)
  have hb3 : s3.category_breakdown = categoryBreakdown [entCash1, entCash2, entGold] := by
    have h2 := hcomp
    rw [hok3] at h2
    exact congrArg StatsResponse.category_breakdown (Except.ok.inj h2)
  rw [hb1] at hc1
  rw [hb2] at hc2
  rw [hb3] at hc3
  refine ⟨rfl, ?_, ?_, ?_⟩
  · have hfe : List.filter (fun z => z.category == "Cash")
        (List.filter (fun z => z.user_id == sampleUser.oid) sampleDB.zakat) =
        [entCash1, entCash2] := by rfl
    rw [hc1, hfe, if_neg (by decide)]
    norm_num [statOf, entCash1, entCash2]
  · have hfg : List.filter (fun z => z.category == "Gold")
        (List.filter (fun z => z.user_id == sampleUser.oid) sampleDB.zakat) =
        [entGold] := by rfl
    rw [hc2, hfg, if_neg (by decide)]
    norm_num [statOf, entGold]
  · have hfs : List.filter (fun z => z.category == "Silver")
        (List.filter (fun z => z.user_id == sampleUser.oid) sampleDB.zakat) =
        ([] : List ZakatDoc) := by rfl
    rw [hc3, hfs, if_pos (by decide)]

end ZakatMS
